import Mathlib

/-!
Shallow embedding of the XBRL processor's fact model and validation engine
(processor.py, core/models.py, validators/calculation_validator.py,
validators/taxonomy_validator.py), together with theorems settling the
specification claims about it.

Python dict objects are modelled as insertion-ordered association lists,
Python Decimal values as sign/coefficient/exponent triples with exact
arithmetic (faithful to the default 28-digit context in the coefficient
ranges the theorems quantify over), and Python floats as mantissa-times-
power-of-two pairs obtained by round-to-nearest-even binary64 rounding.
String primitives are modelled over character lists.
-/

namespace XBRL

/-! ### String helpers mirroring the Python primitives used by the source -/

/-- Characters removed by Python str.strip() without arguments (the ASCII
whitespace set; the processor's inputs contain no exotic Unicode
whitespace). -/
def pyWhitespace : List Char := [' ', '\t', '\n', '\r', '\x0b', '\x0c']

/-- Drop the given characters from both ends of a character list. -/
def charStrip (ws : List Char) (cs : List Char) : List Char :=
  ((cs.dropWhile (· ∈ ws)).reverse.dropWhile (· ∈ ws)).reverse

/-- Python str.strip() without arguments. -/
def pyStrip (s : String) : String :=
  String.mk (charStrip pyWhitespace s.toList)

/-- Python str.strip(chars): drop the given characters from both ends. -/
def stripChars (cs : List Char) (s : String) : String :=
  String.mk (charStrip cs s.toList)

/-- ASCII lower-casing of one character. -/
def charLower (c : Char) : Char :=
  if 'A' ≤ c ∧ c ≤ 'Z' then Char.ofNat (c.toNat + 32) else c

/-- Python str.lower() restricted to ASCII letters (the scaling code's
number words and numeric text are ASCII). -/
def pyLower (s : String) : String :=
  String.mk (s.toList.map charLower)

/-- Python str.replace(old, "") for a single-character pattern. -/
def removeChar (c : Char) (s : String) : String :=
  String.mk (s.toList.filter (· ≠ c))

/-- Python str.replace(old, new) for single-character pattern and
replacement. -/
def replaceChar (c r : Char) (s : String) : String :=
  String.mk (s.toList.map (fun x => if x = c then r else x))

/-- Whether a string contains a character. -/
def containsChar (s : String) (c : Char) : Bool :=
  s.toList.contains c

/-- Whether a string starts with a character. -/
def startsWithChar (s : String) (c : Char) : Bool :=
  match s.toList with
  | x :: _ => x = c
  | [] => false

/-- Whether a string ends with a character. -/
def endsWithChar (s : String) (c : Char) : Bool :=
  match s.toList.getLast? with
  | some x => x = c
  | none => false

/-- Whether a string starts with the given string. -/
def startsWithStr (s pre : String) : Bool :=
  pre.toList.isPrefixOf s.toList

/-- Drop the first n characters of a string. -/
def strDrop (n : Nat) (s : String) : String :=
  String.mk (s.toList.drop n)

/-- Drop the last n characters of a string. -/
def strDropRight (n : Nat) (s : String) : String :=
  String.mk (s.toList.take (s.toList.length - n))

/-- Take the first n characters of a string. -/
def strTake (n : Nat) (s : String) : String :=
  String.mk (s.toList.take n)

/-- Split a character list on a separator character, keeping empty pieces,
as Python str.split(sep) does. -/
def splitOnChar (c : Char) : List Char → List (List Char)
  | [] => [[]]
  | x :: rest =>
    match splitOnChar c rest with
    | [] => [[]]
    | g :: gs => if x = c then [] :: g :: gs else (x :: g) :: gs

/-- Join strings with a separator, Python sep.join. -/
def joinWith (sep : String) : List String → String
  | [] => ""
  | [x] => x
  | x :: rest => x ++ sep ++ joinWith sep rest

/-- Digits of a character list interpreted as a base-10 numeral. -/
def digitsVal (cs : List Char) : Nat :=
  cs.foldl (fun a c => 10 * a + (c.toNat - 48)) 0

/-- Check that no two consecutive characters are both underscores. -/
def noDoubleUnderscore : List Char → Bool
  | [] => true
  | [_] => true
  | a :: b :: rest => !(a = '_' && b = '_') && noDoubleUnderscore (b :: rest)

/-- Validate a digit group that may contain PEP-515 underscore separators
(nonempty, starts and ends with a digit, no doubled underscore) and return
the digits with the underscores removed. -/
def digitGroup (cs : List Char) : Option (List Char) :=
  if cs ≠ [] ∧ cs.head? ≠ some '_' ∧ cs.getLast? ≠ some '_' ∧
     cs.all (fun c => c.isDigit || c = '_') ∧ noDoubleUnderscore cs then
    some (cs.filter (· ≠ '_'))
  else none

/-- Model of Python int() on a string: surrounding whitespace stripped, an
optional sign, then an underscore-separated ASCII digit group. -/
def parseIntStr (s : String) : Option Int :=
  match (pyStrip s).toList with
  | '+' :: rest => (digitGroup rest).map (fun ds => (digitsVal ds : Int))
  | '-' :: rest => (digitGroup rest).map (fun ds => -(digitsVal ds : Int))
  | cs => (digitGroup cs).map (fun ds => (digitsVal ds : Int))

/-- Split a character list at the first character satisfying the predicate;
the second component is the suffix after that character, when one exists. -/
def splitFirst (p : Char → Bool) : List Char → List Char × Option (List Char)
  | [] => ([], none)
  | c :: rest =>
    if p c then ([], some rest)
    else
      let (a, b) := splitFirst p rest
      (c :: a, b)

/-! ### Python Decimal model

A finite Decimal value is a sign, a coefficient and a power-of-ten exponent.
The NaN and Infinity spellings accepted by the Decimal constructor are not
modelled: the processor only builds Decimals from cleaned numeric text. -/

structure PyDecimal where
  neg : Bool
  coeff : Nat
  exp : Int
deriving DecidableEq, Repr

/-- Rational value denoted by a Decimal triple. -/
def PyDecimal.val (d : PyDecimal) : ℚ :=
  (if d.neg then -1 else 1) * (d.coeff : ℚ) * (10 : ℚ) ^ d.exp

/-- Signed coefficient of a Decimal triple. -/
def PyDecimal.intCoeff (d : PyDecimal) : Int :=
  if d.neg then -(d.coeff : Int) else (d.coeff : Int)

/-- Parse an exponent part of a Decimal literal: optional sign then digits
(underscores have already been removed). -/
def parseExpPart (cs : List Char) : Option Int :=
  match cs with
  | '+' :: rest => if rest ≠ [] ∧ rest.all (·.isDigit) then some (digitsVal rest : Int) else none
  | '-' :: rest => if rest ≠ [] ∧ rest.all (·.isDigit) then some (-(digitsVal rest : Int)) else none
  | _ => if cs ≠ [] ∧ cs.all (·.isDigit) then some (digitsVal cs : Int) else none

/-- Model of the Python Decimal constructor on finite ASCII numeric literals:
the string is stripped, underscores are removed (as in the pure-Python
implementation), then an optional sign, integer digits, an optional fraction
and an optional exponent are read.  The NaN/Infinity spellings are treated as
parse failures, which the processor's inputs never exercise. -/
def parseDecimalCore (s : String) : Option PyDecimal :=
  let cs := (pyStrip s).toList.filter (· ≠ '_')
  let (neg, cs) :=
    match cs with
    | '+' :: r => (false, r)
    | '-' :: r => (true, r)
    | r => (false, r)
  let (mant, expPart) := splitFirst (fun c => c = 'e' || c = 'E') cs
  let (ip, fpOpt) := splitFirst (fun c => c = '.') mant
  let fp := fpOpt.getD []
  if ip.all (·.isDigit) ∧ fp.all (·.isDigit) ∧ (ip ≠ [] ∨ fp ≠ []) then
    match expPart with
    | none => some ⟨neg, digitsVal (ip ++ fp), -(fp.length : Int)⟩
    | some es =>
      match parseExpPart es with
      | some e => some ⟨neg, digitsVal (ip ++ fp), e - (fp.length : Int)⟩
      | none => none
  else none

/-- Fuel-driven loop dividing the coefficient by ten while it is a nonzero
multiple of ten; the fuel (initially the coefficient itself) dominates the
number of steps. -/
def reduceCoeffAux : Nat → Nat → Int → Nat × Int
  | 0, c, e => (c, e)
  | fuel + 1, c, e =>
    if c ≠ 0 ∧ c % 10 = 0 then reduceCoeffAux fuel (c / 10) (e + 1) else (c, e)

/-- Strip trailing zero digits from a coefficient, raising the exponent. -/
def reduceCoeff (c : Nat) (e : Int) : Nat × Int :=
  reduceCoeffAux c c e

/-- Model of Decimal.normalize: strip trailing zeros from the coefficient; a
zero value gets exponent 0 (sign retained, as in Python). -/
def PyDecimal.normalize (d : PyDecimal) : PyDecimal :=
  if d.coeff = 0 then ⟨d.neg, 0, 0⟩
  else
    let ce := reduceCoeff d.coeff d.exp
    ⟨d.neg, ce.1, ce.2⟩

/-- Model of str() on a Decimal, following the to-scientific-string
conversion: plain notation when the exponent is at most 0 and the adjusted
exponent is at least -6, scientific notation with an explicit sign on the
exponent otherwise. -/
def PyDecimal.toStr (d : PyDecimal) : String :=
  let ds := toString d.coeff
  let n := ds.toList.length
  let adj : Int := d.exp + (n : Int) - 1
  let sign := if d.neg then "-" else ""
  if d.exp ≤ 0 ∧ -6 ≤ adj then
    if d.exp = 0 then sign ++ ds
    else if adj < 0 then
      sign ++ "0." ++ String.mk (List.replicate ((-d.exp).toNat - n) '0') ++ ds
    else
      sign ++ strTake (n - (-d.exp).toNat) ds ++ "." ++ strDrop (n - (-d.exp).toNat) ds
  else
    sign ++ strTake 1 ds ++ (if 1 < n then "." ++ strDrop 1 ds else "") ++ "E" ++
      (if 0 ≤ adj then "+" else "") ++ toString adj

/-- Multiplication of a Decimal by ten to an integer power, as performed by
the scaling code via decimal_value * Decimal(10) ** scale_factor.  Under the
default 28-digit context this product is exact whenever the coefficient has
at most 28 digits, which is the regime the theorems below restrict to. -/
def scaledDec (d : PyDecimal) (sf : Int) : PyDecimal :=
  ⟨d.neg, d.coeff, d.exp + sf⟩

/-- Exact Decimal addition at the ideal exponent min(e1, e2), as the default
context performs it for results within its 28-digit precision (the
validator's sums in the ranges quantified over below). -/
def decAdd (a b : PyDecimal) : PyDecimal :=
  ⟨decide (a.intCoeff * (10 : Int) ^ (a.exp - min a.exp b.exp).toNat +
      b.intCoeff * (10 : Int) ^ (b.exp - min a.exp b.exp).toNat < 0),
   (a.intCoeff * (10 : Int) ^ (a.exp - min a.exp b.exp).toNat +
      b.intCoeff * (10 : Int) ^ (b.exp - min a.exp b.exp).toNat).natAbs,
   min a.exp b.exp⟩

/-- Exact Decimal multiplication (coefficients multiply, exponents add,
signs combine), again exact within the context precision. -/
def decMul (a b : PyDecimal) : PyDecimal :=
  ⟨xor a.neg b.neg, a.coeff * b.coeff, a.exp + b.exp⟩

/-- Decimal subtraction a - b = a + (-b). -/
def decSub (a b : PyDecimal) : PyDecimal :=
  decAdd a ⟨!b.neg, b.coeff, b.exp⟩

/-- Decimal abs. -/
def decAbs (a : PyDecimal) : PyDecimal :=
  ⟨false, a.coeff, a.exp⟩

/-- Value comparison a > b on Decimals, by aligning exponents. -/
def decGtVal (a b : PyDecimal) : Bool :=
  decide (b.intCoeff * (10 : Int) ^ (b.exp - min a.exp b.exp).toNat <
    a.intCoeff * (10 : Int) ^ (a.exp - min a.exp b.exp).toNat)

/-- The Decimal zero the validator's sum starts from. -/
def decZero : PyDecimal := ⟨false, 0, 0⟩

/-- The Decimal tolerance 0.01 of the calculation validator. -/
def decTolerance : PyDecimal := ⟨false, 1, -2⟩

/-! ### iXBRLProcessor._apply_scaling and ._apply_transform -/

/-- Number words recognised by the scaling code. -/
def numberWords : List (String × String) :=
  [("zero", "0"), ("one", "1"), ("two", "2"), ("three", "3"), ("four", "4"),
   ("five", "5"), ("six", "6"), ("seven", "7"), ("eight", "8"), ("nine", "9"),
   ("ten", "10")]

/-- Tokens that _apply_scaling maps directly to "0". -/
def scaleSpecials : List String := ["—", "–", "-", "n/a"]

/-- Text after the strip/lower/number-word steps of _apply_scaling; this is
the exact value the function returns when numeric parsing fails. -/
def preScaleText (value : String) : String :=
  let v := pyLower (pyStrip value)
  ((numberWords.lookup v).getD v)

/-- Parse-and-scale core of iXBRLProcessor._apply_scaling on the cleaned
text: remove commas, multiply the parsed Decimal by ten to the parsed scale
and render the normalized result; if either parse fails, the cleaned text
(commas retained) is returned. -/
def applyScalingCore (w scale : String) : String :=
  match parseDecimalCore (removeChar ',' w), parseIntStr scale with
  | some d, some sf => (PyDecimal.normalize (scaledDec d sf)).toStr
  | some _, none => w
  | none, _ => w

/-- Model of iXBRLProcessor._apply_scaling, outer dispatch: empty/dash/n-a
inputs map to "0", everything else goes through the parse-and-scale core on
the cleaned text. -/
def applyScaling (value scale : String) : String :=
  if pyLower (pyStrip value) = "" ∨ pyLower (pyStrip value) ∈ scaleSpecials then "0"
  else applyScalingCore (preScaleText value) scale

/-- Currency characters stripped by the numeric transforms. -/
def currencyChars : List Char := ['$', '€', '£', '¥']

/-- Format-specific cleanup step of _apply_transform. -/
def formatClean (format : String) (v : String) : String :=
  if format = "ixt:numdotdecimal" then removeChar ',' (stripChars currencyChars v)
  else if format = "ixt:numcommadot" then
    replaceChar ',' '.' (removeChar '.' (stripChars currencyChars v))
  else v

/-- Parenthetical-negative step of _apply_transform: a value fully wrapped in
parentheses has them stripped and a minus sign prepended. -/
def parenNegate (v : String) : String :=
  if startsWithChar v '(' ∧ endsWithChar v ')' then "-" ++ strDropRight 1 (strDrop 1 v)
  else v

/-- Trailing-percent step of _apply_transform. -/
def percentStrip (v : String) : String :=
  if endsWithChar v '%' then strDropRight 1 v else v

/-- Model of iXBRLProcessor._apply_transform: empty value or format is
returned unchanged; otherwise the trimmed value goes through the
format-specific cleanup, the parenthetical-negative rule, the
trailing-percent rule and a final trim. -/
def applyTransform (value format : String) : String :=
  if value = "" ∨ format = "" then value
  else pyStrip (percentStrip (parenNegate (formatClean format (pyStrip value))))

/-! ### Python float model

Python float(text) on a decimal literal yields the IEEE-754 binary64 value
nearest to the literal (ties to even).  A finite float is represented as a
mantissa and a power-of-two exponent, denoting m * 2 ^ e. -/

inductive PyFloat
  | finite (m : Int) (e : Int)
  | inf
  | negInf
deriving DecidableEq, Repr

/-- Rational value of a finite float. -/
def PyFloat.valQ : PyFloat → Option ℚ
  | .finite m e => some ((m : ℚ) * (2 : ℚ) ^ e)
  | _ => none

/-- Round p / q to the nearest natural, ties to even. -/
def roundHalfEvenNat (p q : Nat) : Nat :=
  let f := p / q
  let r := p % q
  if 2 * r < q then f
  else if q < 2 * r then f + 1
  else if f % 2 = 0 then f else f + 1

/-- Fuel-driven floor of the base-2 logarithm. -/
def natLog2Aux : Nat → Nat → Nat
  | 0, _ => 0
  | fuel + 1, n => if 2 ≤ n then natLog2Aux fuel (n / 2) + 1 else 0

/-- Floor of the base-2 logarithm of a natural number. -/
def natLog2 (n : Nat) : Nat :=
  natLog2Aux n n

/-- Least m with b ≤ a * 2 ^ m, for 1 ≤ a < b (searched over a range wide
enough to contain it). -/
def leastPow (a b : Nat) : Nat :=
  (((List.range (natLog2 (b / a) + 2)).find? (fun m => b ≤ a * 2 ^ m)).getD 0)

/-- Floor of the base-2 logarithm of the positive rational a / b. -/
def floorLog2Frac (a b : Nat) : Int :=
  if b ≤ a then (natLog2 (a / b) : Int) else -(leastPow a b : Int)

/-- Round the rational num / den to binary64: round-to-nearest-even at 53
significand bits, exponent clamped below for subnormals, infinity on
overflow. -/
def floatOfFrac (num : Int) (den : Nat) : PyFloat :=
  if num = 0 then .finite 0 0
  else
    let a := num.natAbs
    let k := floorLog2Frac a den
    let e : Int := max (k - 52) (-1074)
    let pq : Nat × Nat :=
      if 0 ≤ e then (a, den * 2 ^ e.toNat) else (a * 2 ^ (-e).toNat, den)
    let m := roundHalfEvenNat pq.1 pq.2
    if 2 ^ 2098 ≤ m * 2 ^ (e + 1074).toNat then (if num < 0 then .negInf else .inf)
    else .finite (if num < 0 then -(m : Int) else (m : Int)) e

/-- Exact value of a float literal accepted by Python float(), as a
numerator/denominator pair: optional sign, integer digits, optional
fraction, optional exponent, with PEP-515 underscore rules in each digit
group (the inf/nan spellings contain no dot and cannot reach the call site
modelled here). -/
def parseFloatFrac (s : String) : Option (Int × Nat) :=
  let cs := (pyStrip s).toList
  let (neg, cs) :=
    match cs with
    | '+' :: r => (false, r)
    | '-' :: r => (true, r)
    | r => (false, r)
  let (mant, expPart) := splitFirst (fun c => c = 'e' || c = 'E') cs
  let (ip, fpOpt) := splitFirst (fun c => c = '.') mant
  let ipds? := if ip = [] then some [] else digitGroup ip
  let fpds? := match fpOpt with
    | none => some []
    | some fp => if fp = [] then some [] else digitGroup fp
  match ipds?, fpds? with
  | some ipds, some fpds =>
    if ipds = [] ∧ fpds = [] then none
    else
      let expv? : Option Int := match expPart with
        | none => some 0
        | some es =>
          match es with
          | '+' :: r => (digitGroup r).map (fun ds => (digitsVal ds : Int))
          | '-' :: r => (digitGroup r).map (fun ds => -(digitsVal ds : Int))
          | r => (digitGroup r).map (fun ds => (digitsVal ds : Int))
      match expv? with
      | none => none
      | some expv =>
        let n : Int := (digitsVal (ipds ++ fpds) : Int)
        let n := if neg then -n else n
        let f : Int := (fpds.length : Int)
        if f ≤ expv then some (n * (10 : Int) ^ (expv - f).toNat, 1)
        else some (n, 10 ^ (f - expv).toNat)
  | _, _ => none

/-! ### Document model (core/models.py and the dataclasses in processor.py) -/

/-- Timestamp produced by XBRLProcessor._parse_date (datetime.strptime on
the two supported formats). -/
structure DateTime where
  year : Nat
  month : Nat
  day : Nat
  hour : Nat
  minute : Nat
  second : Nat
deriving DecidableEq, Repr

/-- Value of a decimals/precision attribute as parsed by
_parse_numeric_attribute: an integer, or positive infinity for INF. -/
inductive NumAttr
  | int (i : Int)
  | inf
deriving DecidableEq, Repr

/-- Value of a fact: Python int, float or str, as produced by
_extract_fact_value (standard facts) or kept as text (inline facts). -/
inductive FactValue
  | int (i : Int)
  | float (f : PyFloat)
  | str (s : String)
deriving DecidableEq, Repr

/-- isinstance(value, (int, float)) as used by validate(). -/
def pyIsNumeric : FactValue → Bool
  | .int _ => true
  | .float _ => true
  | .str _ => false

/-- XBRLContext dataclass.  The scenario payload is modelled
presence-only: no validated property inspects its contents. -/
structure XBRLContext where
  id : String
  entity : String
  period_start : Option DateTime
  period_end : Option DateTime
  instant : Option DateTime
  scenarioPresent : Bool
deriving DecidableEq, Repr

/-- XBRLContext.is_duration property. -/
def XBRLContext.is_duration (c : XBRLContext) : Bool :=
  c.period_start.isSome && c.period_end.isSome

/-- XBRLContext.is_instant property. -/
def XBRLContext.is_instant (c : XBRLContext) : Bool :=
  c.instant.isSome

/-- XBRLUnit dataclass. -/
structure XBRLUnit where
  id : String
  measures : List String
  divide : Bool
  numerator : List String
  denominator : List String
deriving DecidableEq, Repr

/-- XBRLFact dataclass. -/
structure XBRLFact where
  concept : String
  value : FactValue
  context_ref : String
  unit_ref : Option String
  decimals : Option NumAttr
  precision : Option NumAttr
deriving DecidableEq, Repr

/-- Mutable collections of XBRLProcessor that validation reads. -/
structure ProcessorState where
  contexts : List (String × XBRLContext)
  units : List (String × XBRLUnit)
  facts : List XBRLFact
deriving DecidableEq, Repr

/-- Python truthiness test for an optional string attribute (None and the
empty string are falsy). -/
def pyFalsyOpt : Option String → Bool
  | none => true
  | some s => s = ""

/-- Insertion into an insertion-ordered dict: replace the value in place if
the key exists, append otherwise. -/
def dictInsert {α : Type} : List (String × α) → String → α → List (String × α)
  | [], k, v => [(k, v)]
  | (k', v') :: rest, k, v =>
    if k' = k then (k, v) :: rest else (k', v') :: dictInsert rest k v

/-! ### XML element model

A parsed lxml element: namespace URI, local name, attributes, leading text,
trailing (tail) text and children in document order. -/

structure Elem where
  ns : String
  name : String
  attrs : List (String × String)
  text : Option String
  tail : Option String
  children : List Elem

/-- Attribute lookup, elem.get(name). -/
def getAttr (e : Elem) (a : String) : Option String :=
  e.attrs.lookup a

mutual
/-- All proper descendants of an element in document order, the node set
that findall('.//...') filters. -/
def Elem.descendants : Elem → List Elem
  | ⟨_, _, _, _, _, children⟩ => descList children

/-- Preorder listing of a forest of elements. -/
def descList : List Elem → List Elem
  | [] => []
  | c :: rest => c :: (Elem.descendants c ++ descList rest)
end

/-- findall('.//{ns}name'): descendants with the given namespace and local
name, in document order. -/
def findallDesc (e : Elem) (ns name : String) : List Elem :=
  e.descendants.filter (fun d => d.ns = ns ∧ d.name = name)

/-- findall('./{ns}name'): children with the given namespace and local
name. -/
def findallChild (e : Elem) (ns name : String) : List Elem :=
  e.children.filter (fun d => d.ns = ns ∧ d.name = name)

/-- find('.//{ns}name'): first matching descendant. -/
def findDesc (e : Elem) (ns name : String) : Option Elem :=
  (findallDesc e ns name).head?

/-- find('./{ns}name') / find('{ns}name'): first matching child. -/
def findChild (e : Elem) (ns name : String) : Option Elem :=
  (findallChild e ns name).head?

/-- Namespace URI bound to the xbrli prefix (and used as the default
instance namespace) in XBRLProcessor.namespaces. -/
def xbrliNs : String := "http://www.xbrl.org/2001/instance"

/-! ### XBRLProcessor: entity, period and context extraction -/

/-- Effective XBRLProcessor._extract_entity: the second definition of the
method in the class body, which shadows the first.  It finds the first
entity/identifier descendant pair and, when the identifier has truthy text,
returns scheme ++ ":" ++ text with the scheme defaulting to the empty
string — so the colon is always present and the text keeps its
whitespace. -/
def extractEntity (context : Elem) : String :=
  let idents := (findallDesc context xbrliNs "entity").flatMap
    (fun ent => findallChild ent xbrliNs "identifier")
  match idents.head? with
  | none => ""
  | some el =>
    match el.text with
    | none => ""
    | some t =>
      if t ≠ "" then ((getAttr el "scheme").getD "") ++ ":" ++ t else ""

/-- First (shadowed, dead) XBRLProcessor._extract_entity definition: finds
an identifier descendant, trims its text, and omits the colon when the
scheme attribute is absent or empty.  Both of its namespace-qualified
strategies resolve to the same URI, with a namespace-agnostic local-name
fallback. -/
def extractEntityShadowed (context : Elem) : Option String :=
  let ident :=
    match findDesc context xbrliNs "identifier" with
    | some el => some el
    | none => (context.descendants.filter (fun d : Elem => d.name = "identifier")).head?
  match ident with
  | none => none
  | some el =>
    match el.text with
    | none => none
    | some t =>
      if t ≠ "" then
        let scheme := (getAttr el "scheme").getD ""
        some (if scheme ≠ "" then scheme ++ ":" ++ pyStrip t else pyStrip t)
      else none

/-- Gregorian month lengths, as validated by datetime. -/
def daysInMonth (y m : Nat) : Nat :=
  if m = 2 then
    if y % 4 = 0 ∧ (y % 100 ≠ 0 ∨ y % 400 = 0) then 29 else 28
  else if m = 4 ∨ m = 6 ∨ m = 9 ∨ m = 11 then 30
  else 31

/-- Parse one strptime field: 1 to w ASCII digits. -/
def strpField (w : Nat) (cs : List Char) : Option Nat :=
  if cs ≠ [] ∧ cs.length ≤ w ∧ cs.all (·.isDigit) then some (digitsVal cs) else none

/-- strptime(t, %Y-%m-%d) with date validity checks. -/
def parseYMD (t : List Char) : Option DateTime :=
  match splitOnChar '-' t with
  | [ys, ms, ds] =>
    match strpField 4 ys, strpField 2 ms, strpField 2 ds with
    | some y, some m, some d =>
      if 1 ≤ m ∧ m ≤ 12 ∧ 1 ≤ d ∧ d ≤ daysInMonth y m then
        some ⟨y, m, d, 0, 0, 0⟩
      else none
    | _, _, _ => none
  | _ => none

/-- strptime(t, %Y-%m-%dT%H:%M:%S). -/
def parseYMDHMS (t : List Char) : Option DateTime :=
  match splitOnChar 'T' t with
  | [dpart, tpart] =>
    match parseYMD dpart, splitOnChar ':' tpart with
    | some dt, [hs, mis, ss] =>
      match strpField 2 hs, strpField 2 mis, strpField 2 ss with
      | some h, some mi, some s =>
        if h ≤ 23 ∧ mi ≤ 59 ∧ s ≤ 61 then some ⟨dt.year, dt.month, dt.day, h, mi, s⟩
        else none
      | _, _, _ => none
    | _, _ => none
  | _ => none

/-- Model of XBRLProcessor._parse_date: falsy input yields None, otherwise
the trimmed string is parsed with the date or date-time format, a failure
raising ValueError (modelled as Except.error). -/
def parseDate (s? : Option String) : Except String (Option DateTime) :=
  match s? with
  | none => .ok none
  | some s =>
    if s = "" then .ok none
    else
      let t := (pyStrip s).toList
      if t.contains 'T' then
        match parseYMDHMS t with
        | some dt => .ok (some dt)
        | none => .error ("Unable to parse date " ++ String.mk t)
      else
        match parseYMD t with
        | some dt => .ok (some dt)
        | none => .error ("Unable to parse date " ++ String.mk t)

/-- Period fields returned by _extract_period (a Python dict of keyword
arguments; absent keys leave the dataclass defaults of None). -/
structure PeriodData where
  period_start : Option DateTime
  period_end : Option DateTime
  instant : Option DateTime
deriving DecidableEq, Repr

/-- Model of XBRLProcessor._extract_period: no period element yields no
period data; an instant child yields the instant form; otherwise the
startDate/endDate children are parsed (each may be absent). -/
def extractPeriod (context : Elem) : Except String PeriodData :=
  match findDesc context xbrliNs "period" with
  | none => .ok ⟨none, none, none⟩
  | some period =>
    match findChild period xbrliNs "instant" with
    | some inst =>
      match parseDate inst.text with
      | .ok d => .ok ⟨none, none, d⟩
      | .error e => .error e
    | none =>
      match (match findChild period xbrliNs "startDate" with
             | some el => parseDate el.text
             | none => .ok none) with
      | .error e => .error e
      | .ok ps =>
        match (match findChild period xbrliNs "endDate" with
               | some el => parseDate el.text
               | none => .ok none) with
        | .error e => .error e
        | .ok pe => .ok ⟨ps, pe, none⟩

/-- Model of _extract_scenario restricted to presence (the flattened
segment dictionaries are not inspected by any validated property). -/
def extractScenario (context : Elem) : Bool :=
  (findDesc context xbrliNs "scenario").isSome

/-- Body of the _parse_contexts loop for one context element: contexts
without a truthy id or a truthy entity are skipped; otherwise period data is
extracted (a date error propagating) and the context stored under its id. -/
def processContextElem (contexts : List (String × XBRLContext)) (c : Elem) :
    Except String (List (String × XBRLContext)) :=
  match getAttr c "id" with
  | none => .ok contexts
  | some cid =>
    if cid = "" then .ok contexts
    else if extractEntity c = "" then .ok contexts
    else
      match extractPeriod c with
      | .error e => .error e
      | .ok pd =>
        .ok (dictInsert contexts cid
          ⟨cid, extractEntity c, pd.period_start, pd.period_end, pd.instant,
            extractScenario c⟩)

/-- Model of the _parse_contexts loop over the context elements located by
its lookup strategies. -/
def parseContexts (contexts : List (String × XBRLContext)) (elems : List Elem) :
    Except String (List (String × XBRLContext)) :=
  elems.foldlM processContextElem contexts

/-! ### XBRLProcessor unit extraction and fact values -/

/-- Python a or b on optional strings: the first operand wins when
truthy. -/
def pyOrOpt (a b : Option String) : Option String :=
  match a with
  | some s => if s ≠ "" then some s else b
  | none => b

/-- Truthy-text extraction used for measure elements: append the stripped
text when the raw text is truthy. -/
def textTruthyTrim (e : Elem) : Option String :=
  match e.text with
  | none => none
  | some t => if t ≠ "" then some (pyStrip t) else none

/-- Measures of a unit element: child measure elements first, with a
fallback to descendant measures when no child carries one. -/
def unitMeasures (unit : Elem) : List String :=
  let m0 := (findallChild unit xbrliNs "measure").filterMap textTruthyTrim
  if m0 = [] then (findallDesc unit xbrliNs "measure").filterMap textTruthyTrim else m0

/-- Numerator measures collected under a divide element. -/
def unitNumerator (de : Elem) : List String :=
  ((findallDesc de xbrliNs "numerator").flatMap
    (fun n => findallDesc n xbrliNs "measure")).filterMap textTruthyTrim

/-- Denominator measures collected under a divide element. -/
def unitDenominator (de : Elem) : List String :=
  ((findallDesc de xbrliNs "denominator").flatMap
    (fun n => findallDesc n xbrliNs "measure")).filterMap textTruthyTrim

/-- Body of _process_unit_element once a truthy unit id is resolved:
divide data from a divide child, and materialization only when a plain
measure or a numerator measure was found. -/
def processUnitWithId (units : List (String × XBRLUnit)) (unit : Elem)
    (uid : String) : List (String × XBRLUnit) :=
  if uid = "" then units
  else
    match findChild unit xbrliNs "divide" with
    | none =>
      if unitMeasures unit ≠ [] then
        dictInsert units uid ⟨uid, unitMeasures unit, false, [], []⟩
      else units
    | some de =>
      if unitMeasures unit ≠ [] ∨ unitNumerator de ≠ [] then
        dictInsert units uid ⟨uid, unitMeasures unit, true, unitNumerator de,
          unitDenominator de⟩
      else units

/-- Model of XBRLProcessor._process_unit_element: id from the override or
the id attribute (falsy ids, None included, skip), then the unit body. -/
def processUnitElement (units : List (String × XBRLUnit)) (unit : Elem)
    (overrideId : Option String) : List (String × XBRLUnit) :=
  match pyOrOpt overrideId (getAttr unit "id") with
  | none => units
  | some uid => processUnitWithId units unit uid

/-- Model of _parse_numeric_attribute: INF maps to infinity, otherwise an
int parse with failures yielding None. -/
def parseNumericAttribute (v : Option String) : Option NumAttr :=
  match v with
  | none => none
  | some s =>
    if s = "INF" then some .inf
    else (parseIntStr s).map .int

/-- Numeric coercion step of _extract_fact_value on the sign-adjusted
trimmed text: text containing a dot is parsed with float() (binary64),
other text with int(), and on parse failure the string is kept. -/
def extractFactValueCore (v : String) : Option FactValue :=
  if containsChar v '.' then
    match parseFloatFrac v with
    | some nd => some (.float (floatOfFrac nd.1 nd.2))
    | none => some (.str v)
  else
    match parseIntStr v with
    | some i => some (.int i)
    | none => some (.str v)

/-- Model of XBRLProcessor._extract_fact_value: None or blank text yields
None; a sign attribute of minus prepends a minus sign before the numeric
coercion. -/
def extractFactValue (text? : Option String) (sign : String) : Option FactValue :=
  match text? with
  | none => none
  | some t =>
    if pyStrip t = "" then none
    else extractFactValueCore (if sign = "-" then "-" ++ pyStrip t else pyStrip t)

/-! ### XBRLProcessor.validate -/

/-- Diagnostics produced by validate(), with the payloads that the source
interpolates into each message. -/
inductive ValidationError
  | missingContext (concept contextRef : String)
  | missingUnitRef (concept : String)
  | missingUnit (concept unitRef : String)
  | unexpectedUnit (concept : String)
deriving DecidableEq, Repr

/-- Unit-related diagnostics validate() appends for a single fact: for
numeric values a missing-unit-reference message when the unit reference is
falsy or a missing-unit message when it does not resolve; for non-numeric
values an unexpected-unit message when a unit reference is present. -/
def unitErrors (st : ProcessorState) (fact : XBRLFact) : List ValidationError :=
  if pyIsNumeric fact.value then
    if pyFalsyOpt fact.unit_ref then [.missingUnitRef fact.concept]
    else
      match fact.unit_ref with
      | some u => if (st.units.lookup u).isNone then [.missingUnit fact.concept u] else []
      | none => []
  else
    if pyFalsyOpt fact.unit_ref then [] else [.unexpectedUnit fact.concept]

/-- Diagnostics validate() appends for a single fact: a missing-context
message when the context reference is unknown, then the unit-related
messages. -/
def factErrors (st : ProcessorState) (fact : XBRLFact) : List ValidationError :=
  (if (st.contexts.lookup fact.context_ref).isNone then
    [.missingContext fact.concept fact.context_ref]
  else []) ++ unitErrors st fact

/-- Model of XBRLProcessor.validate: the concatenation, in fact order, of
each fact's diagnostics. -/
def validate (st : ProcessorState) : List ValidationError :=
  st.facts.flatMap (factErrors st)

/-- Whether a diagnostic is one of the two missing-unit messages. -/
def isMissingUnitDiag : ValidationError → Bool
  | .missingUnitRef _ => true
  | .missingUnit _ _ => true
  | _ => false

/-! ### CalculationValidator (validators/calculation_validator.py)

Fact values and weights are Decimal triples; the validator's arithmetic
(sums of products and a comparison against the 0.01 tolerance) is exact in
the coefficient ranges exercised. -/

/-- CalculationRelationship dataclass. -/
structure CalculationRelationship where
  parent : String
  child : String
  weight : PyDecimal
  order : Int
  role : String
deriving DecidableEq, Repr

/-- Diagnostics of validate_context_calculations, with the payloads the
source interpolates into the two message kinds. -/
inductive CalcDiag
  | calcMismatch (parent roleDesc contextId : String) (expected actual : PyDecimal)
      (childrenUsed : List String)
  | missingChildren (parent contextId : String) (missing : List String)
deriving DecidableEq, Repr

/-- Parent concept a calculation diagnostic is about. -/
def CalcDiag.parentOf : CalcDiag → String
  | .calcMismatch p _ _ _ _ _ => p
  | .missingChildren p _ _ => p

/-- Python sorted(relationships, key order): a stable sort by ascending
order. -/
def sortRels (rels : List CalculationRelationship) : List CalculationRelationship :=
  rels.insertionSort (fun a b => a.order ≤ b.order)

/-- Lexicographic comparison of character lists by code point, the order
Python string comparison uses. -/
def charListLt : List Char → List Char → Bool
  | [], [] => false
  | [], _ :: _ => true
  | _ :: _, [] => false
  | a :: as, b :: bs => if a < b then true else if b < a then false else charListLt as bs

/-- Python string less-or-equal. -/
def pyStrLe (a b : String) : Bool :=
  charListLt a.toList b.toList || a = b

/-- Python sorted on a set of strings. -/
def sortedStrings (l : List String) : List String :=
  (l.eraseDups).insertionSort (fun a b => pyStrLe a b = true)

/-- Role description: calculation_roles.get(role of the first relationship,
default).  The source indexes relationships[0], which is never empty for
states built by the loader; an empty list here falls back to the default
label. -/
def roleDescOf (roles : List (String × String)) (rels : List CalculationRelationship) :
    String :=
  match rels with
  | r :: _ => (roles.lookup r.role).getD "default"
  | [] => "default"

/-- Weighted sum child_value * weight over the children present in the
context, accumulated in ascending order from Decimal 0, as the loop does. -/
def childSum (facts : List (String × PyDecimal))
    (sorted : List CalculationRelationship) : PyDecimal :=
  sorted.foldl
    (fun acc r =>
      match facts.lookup r.child with
      | some v => decAdd acc (decMul v r.weight)
      | none => acc)
    decZero

/-- Children absent from the context, in ascending order. -/
def missingChildrenOf (facts : List (String × PyDecimal))
    (sorted : List CalculationRelationship) : List String :=
  (sorted.filter (fun r => (facts.lookup r.child).isNone)).map (·.child)

/-- Children present in the context, in ascending order. -/
def usedChildrenOf (facts : List (String × PyDecimal))
    (sorted : List CalculationRelationship) : List String :=
  (sorted.filter (fun r => (facts.lookup r.child).isSome)).map (·.child)

/-- Diagnostic produced for one parent concept with a present value: none
when all children are present and the weighted sum is within the 0.01
tolerance of the parent value, a calculation-error diagnostic on a mismatch,
and a missing-children diagnostic (with the sum check skipped) when some
child is absent. -/
def parentOutcome (roles : List (String × String)) (facts : List (String × PyDecimal))
    (contextId parent : String) (rels : List CalculationRelationship) : Option CalcDiag :=
  match facts.lookup parent with
  | none => none
  | some pv =>
    if missingChildrenOf facts (sortRels rels) = [] then
      if decGtVal (decAbs (decSub pv (childSum facts (sortRels rels)))) decTolerance then
        some (.calcMismatch parent (roleDescOf roles rels) contextId
          (childSum facts (sortRels rels)) pv
          (sortedStrings (usedChildrenOf facts (sortRels rels))))
      else none
    else
      some (.missingChildren parent contextId (missingChildrenOf facts (sortRels rels)))

/-- Loop of validate_context_calculations, carrying the processed set that
guards against re-evaluating a parent concept. -/
def validateCalcGo (roles : List (String × String)) (facts : List (String × PyDecimal))
    (contextId : String) :
    List (String × List CalculationRelationship) → List String → List CalcDiag
  | [], _ => []
  | (parent, rels) :: rest, processed =>
    if (facts.lookup parent).isSome ∧ parent ∉ processed then
      match parentOutcome roles facts contextId parent rels with
      | some d => d :: validateCalcGo roles facts contextId rest (parent :: processed)
      | none => validateCalcGo roles facts contextId rest (parent :: processed)
    else validateCalcGo roles facts contextId rest processed

/-- Model of CalculationValidator.validate_context_calculations. -/
def validateContextCalculations (calcRels : List (String × List CalculationRelationship))
    (roles : List (String × String)) (facts : List (String × PyDecimal))
    (contextId : String) : List CalcDiag :=
  validateCalcGo roles facts contextId calcRels []

/-- Model of CalculationValidator.validate_calculations: each context is
validated separately and the diagnostics are concatenated. -/
def validateCalculations (calcRels : List (String × List CalculationRelationship))
    (roles : List (String × String))
    (ctxFacts : List (String × List (String × PyDecimal))) : List CalcDiag :=
  ctxFacts.flatMap (fun cf => validateContextCalculations calcRels roles cf.2 cf.1)

/-! ### TaxonomyValidator.validate_unit (validators/taxonomy_validator.py) -/

/-- ValidationResult dataclass. -/
structure ValidationResult where
  is_valid : Bool
  errors : List String
  warnings : List String
deriving DecidableEq, Repr

/-- Closed reference set of ISO-4217 currency codes used by the taxonomy
validator. -/
def validCurrencies : List String :=
  ["USD", "EUR", "GBP", "JPY", "CHF", "AUD", "CAD", "CNY", "HKD", "NZD",
   "SEK", "KRW", "SGD", "NOK", "MXN", "INR", "RUB", "ZAR", "TRY", "BRL"]

/-- Warnings validate_unit accumulates for one measure. -/
def measureWarnings (m : String) : List String :=
  (if !(containsChar m ':') then
    ["Measure " ++ m ++ " should include namespace prefix"]
  else []) ++
  (if startsWithStr m "iso4217:" then
    (if strDrop 8 m ∉ validCurrencies then ["Unknown currency code: " ++ strDrop 8 m]
     else [])
  else if m = "xbrli:pure" ∨ m = "xbrli:shares" then []
  else ["Non-standard unit measure: " ++ m])

/-- Error message for a divide unit missing a numerator or denominator. -/
def divideUnitError : String := "Divide units must have both numerator and denominator"

/-- Model of TaxonomyValidator.validate_unit: no measure is a hard error
with an early return; otherwise measure warnings accumulate and a divide
unit lacking a numerator or a denominator gets a hard error. -/
def validateUnit (u : XBRLUnit) : ValidationResult :=
  if u.measures = [] then ⟨false, ["Unit must have at least one measure"], []⟩
  else
    let warnings := u.measures.flatMap measureWarnings
    let errors :=
      if u.divide ∧ (u.numerator = [] ∨ u.denominator = []) then [divideUnitError] else []
    ⟨errors.isEmpty, errors, warnings⟩

/-! ### iXBRLProcessor fact extraction -/

mutual
/-- Model of iXBRLProcessor._get_element_text: the element's own trimmed
text, then for each child its trimmed tail and its recursively flattened
text, the nonempty segments joined with single spaces. -/
def getElementText : Elem → String
  | ⟨_, _, _, text, _, children⟩ =>
    let parts :=
      (match text with
        | some t => [pyStrip t]
        | none => []) ++ childParts children
    joinWith " " (parts.filter (· ≠ ""))

/-- Text segments contributed by a list of child elements. -/
def childParts : List Elem → List String
  | [] => []
  | c :: rest =>
    (match c.tail with
      | some t => if t ≠ "" then [pyStrip t] else []
      | none => []) ++
    (let ct := getElementText c
     if ct ≠ "" then [ct] else []) ++
    childParts rest
end

/-- Model of iXBRLProcessor._process_ixbrl_fact: requires truthy name and
contextRef attributes, reads the optional attributes, flattens the text,
applies the transform when a format is present and the scaling when a scale
is present and the value is truthy, and keeps the resulting string as the
fact value. -/
def processIxbrlFact (elem : Elem) : Option XBRLFact :=
  let concept? := getAttr elem "name"
  let contextRef? := getAttr elem "contextRef"
  if pyFalsyOpt concept? ∨ pyFalsyOpt contextRef? then none
  else
    match concept?, contextRef? with
    | some concept, some contextRef =>
      let unitRef := getAttr elem "unitRef"
      let format := getAttr elem "format"
      let scale := getAttr elem "scale"
      let decimals := parseNumericAttribute (getAttr elem "decimals")
      let precision := parseNumericAttribute (getAttr elem "precision")
      let value := getElementText elem
      let value :=
        match format with
        | some f => if f ≠ "" then applyTransform value f else value
        | none => value
      let value :=
        match scale with
        | some sc => if sc ≠ "" ∧ value ≠ "" then applyScaling value sc else value
        | none => value
      some ⟨concept, .str value, contextRef, unitRef, decimals, precision⟩
    | _, _ => none

/-- Model of iXBRLProcessor._parse_ixbrl_facts around its try block.  At
entry the facts collection is cleared after saving a reference; each
processed fact is appended to both the local list and the collection; on an
exception anywhere in the body the collection is restored to the saved value
and an empty list is returned.  The body is abstracted as a possibly-failing
computation yielding the locally accumulated facts; the result pairs the
final facts collection with the returned list. -/
def parseIxbrlFacts (originalFacts : List XBRLFact)
    (body : Except String (List XBRLFact)) : List XBRLFact × List XBRLFact :=
  match body with
  | .ok fs => (fs, fs)
  | .error _ => (originalFacts, [])

/-- Successful body of _parse_ixbrl_facts for a list of located inline fact
elements: the facts produced by _process_ixbrl_fact in order. -/
def ixbrlFactsBody (elems : List Elem) : List XBRLFact :=
  elems.filterMap processIxbrlFact

/-! ### Concrete documents and states used by the theorems -/

/-- Calculation relationships of the NetIncome example: Revenue with weight
Decimal 1 and order 1, Expenses with weight Decimal -1 and order 2. -/
def exCalcRels : List (String × List CalculationRelationship) :=
  [("NetIncome",
    [⟨"NetIncome", "Revenue", ⟨false, 1, 0⟩, 1, "http://example.com/role/income"⟩,
     ⟨"NetIncome", "Expenses", ⟨true, 1, 0⟩, 2, "http://example.com/role/income"⟩])]

/-- Relationship list of the NetIncome parent in the example. -/
def exNetIncomeRels : List CalculationRelationship :=
  [⟨"NetIncome", "Revenue", ⟨false, 1, 0⟩, 1, "http://example.com/role/income"⟩,
   ⟨"NetIncome", "Expenses", ⟨true, 1, 0⟩, 2, "http://example.com/role/income"⟩]

/-- Facts of the consistent example context. -/
def exFacts1 : List (String × PyDecimal) :=
  [("NetIncome", ⟨false, 500, 0⟩), ("Revenue", ⟨false, 1000, 0⟩),
   ("Expenses", ⟨false, 500, 0⟩)]

/-- Facts of the inconsistent example context (NetIncome changed to 400). -/
def exFacts2 : List (String × PyDecimal) :=
  [("NetIncome", ⟨false, 400, 0⟩), ("Revenue", ⟨false, 1000, 0⟩),
   ("Expenses", ⟨false, 500, 0⟩)]

/-- Context element whose identifier carries no scheme attribute and
whitespace-padded text. -/
def ctxNoScheme : Elem :=
  ⟨xbrliNs, "context", [("id", "c1")], none, none,
    [⟨xbrliNs, "entity", [], none, none,
      [⟨xbrliNs, "identifier", [], some " TEST ", none, []⟩]⟩]⟩

/-- Context element whose identifier carries a scheme attribute and
whitespace-padded text. -/
def ctxWithScheme : Elem :=
  ⟨xbrliNs, "context", [("id", "c1")], none, none,
    [⟨xbrliNs, "entity", [], none, none,
      [⟨xbrliNs, "identifier", [("scheme", "http://test.com")], some " TEST ", none, []⟩]⟩]⟩

/-- Context element ctx1 with entity scheme http://test.com, identifier text
TEST and an instant period of 2024-01-01. -/
def instantCtxElem : Elem :=
  ⟨xbrliNs, "context", [("id", "ctx1")], none, none,
    [⟨xbrliNs, "entity", [], none, none,
      [⟨xbrliNs, "identifier", [("scheme", "http://test.com")], some "TEST", none, []⟩]⟩,
     ⟨xbrliNs, "period", [], none, none,
      [⟨xbrliNs, "instant", [], some "2024-01-01", none, []⟩]⟩]⟩

/-- Context record produced for instantCtxElem. -/
def instantCtxVal : XBRLContext :=
  ⟨"ctx1", "http://test.com:TEST", none, none, some ⟨2024, 1, 1, 0, 0, 0⟩, false⟩

/-- Unit element with a divide child holding only numerator measures: the
measure fallback lookup finds the nested measure, so the unit is
materialized with divide set and an empty denominator. -/
def ceUnitElem : Elem :=
  ⟨xbrliNs, "unit", [("id", "u1")], none, none,
    [⟨xbrliNs, "divide", [], none, none,
      [⟨xbrliNs, "numerator", [], none, none,
        [⟨xbrliNs, "measure", [], some "xbrli:shares", none, []⟩]⟩]⟩]⟩

/-- Unit record stored for ceUnitElem. -/
def ceUnitVal : XBRLUnit :=
  ⟨"u1", ["xbrli:shares"], true, ["xbrli:shares"], []⟩

/-- A fact present in the collection before _parse_ixbrl_facts runs. -/
def cexFactOld : XBRLFact :=
  ⟨"us-gaap:Cash", .str "5", "c0", none, none, none⟩

/-- A fact created by the _parse_ixbrl_facts body. -/
def cexFactNew : XBRLFact :=
  ⟨"us-gaap:Revenue", .str "7", "c1", none, none, none⟩

/-! ### Theorems -/

theorem reduceCoeffAux_val (fuel : Nat) :
    ∀ (c : Nat) (e : Int),
      ((reduceCoeffAux fuel c e).1 : ℚ) * (10 : ℚ) ^ (reduceCoeffAux fuel c e).2 =
        (c : ℚ) * (10 : ℚ) ^ e := by
  induction fuel with
  | zero => intro c e; rfl
  | succ fuel ih =>
    intro c e
    by_cases h : c ≠ 0 ∧ c % 10 = 0
    · have hstep : reduceCoeffAux (fuel + 1) c e = reduceCoeffAux fuel (c / 10) (e + 1) := by
        simp only [reduceCoeffAux, if_pos h]
      rw [hstep, ih]
      obtain ⟨k, hk⟩ : 10 ∣ c := Nat.dvd_of_mod_eq_zero h.2
      subst hk
      rw [Nat.mul_div_cancel_left k (by norm_num)]
      push_cast
      rw [zpow_add_one₀ (by norm_num : (10 : ℚ) ≠ 0)]
      ring
    · simp only [reduceCoeffAux, if_neg h]

theorem normalize_val (d : PyDecimal) : d.normalize.val = d.val := by
  unfold PyDecimal.normalize
  by_cases h : d.coeff = 0
  · simp [h, PyDecimal.val]
  · simp only [if_neg h, PyDecimal.val, reduceCoeff]
    rw [mul_assoc, mul_assoc, reduceCoeffAux_val]

theorem scaledDec_val (d : PyDecimal) (sf : Int) :
    (scaledDec d sf).val = d.val * (10 : ℚ) ^ sf := by
  unfold scaledDec PyDecimal.val
  simp only
  rw [zpow_add₀ (by norm_num : (10 : ℚ) ≠ 0)]
  ring

/-- C3: when the cleaned inline value parses to a Decimal with a coefficient
inside the default context's 28-digit precision and the scale parses to an
integer s, _apply_scaling renders exactly the parsed value multiplied by
10 ^ s (exact decimal arithmetic, no binary floating point); in particular
"386,017" under numdotdecimal cleans to "386017", scaling by 6 renders
"3.86017E+11", and that string denotes exactly the decimal 386017000000. -/
theorem apply_scaling_exact_decimal (value scale : String) (d : PyDecimal) (sf : Int)
    (h1 : pyLower (pyStrip value) ≠ "")
    (h2 : pyLower (pyStrip value) ∉ scaleSpecials)
    (h3 : parseDecimalCore (removeChar ',' (preScaleText value)) = some d)
    (h4 : parseIntStr scale = some sf)
    (h5 : d.coeff < 10 ^ 28) :
    applyScaling value scale = (PyDecimal.normalize (scaledDec d sf)).toStr
    ∧ (PyDecimal.normalize (scaledDec d sf)).val = d.val * (10 : ℚ) ^ sf
    ∧ applyTransform "386,017" "ixt:numdotdecimal" = "386017"
    ∧ applyScaling "386017" "6" = "3.86017E+11"
    ∧ parseDecimalCore "3.86017E+11" = some ⟨false, 386017, 6⟩
    ∧ PyDecimal.val ⟨false, 386017, 6⟩ = 386017000000 := by
  refine ⟨?_, ?_, by decide, by decide, by decide, ?_⟩
  · unfold applyScaling
    rw [if_neg (by push_neg; exact ⟨h1, h2⟩)]
    unfold applyScalingCore
    rw [h3, h4]
  · rw [normalize_val, scaledDec_val]
  · norm_num [PyDecimal.val]

/-- Witness for apply_scaling_exact_decimal at value "386017", scale "6". -/
theorem apply_scaling_exact_decimal_witness :
    applyScaling "386017" "6" =
      (PyDecimal.normalize (scaledDec ⟨false, 386017, 0⟩ 6)).toStr :=
  (apply_scaling_exact_decimal "386017" "6" ⟨false, 386017, 0⟩ 6
    (by decide) (by decide) (by decide) (by decide) (by decide)).1

set_option maxRecDepth 100000 in
/-- C6 counterexample: the dot branch of _extract_fact_value parses with
float(), so the text "0.1" is stored as the binary64 value
7205759403792794 * 2 ^ (-56), which is not the exact decimal 1/10. -/
theorem extract_fact_value_binary_float_cex :
    extractFactValue (some "0.1") "" = some (.float (.finite 7205759403792794 (-56)))
    ∧ PyFloat.valQ (.finite 7205759403792794 (-56)) =
        some ((7205759403792794 : ℚ) / 2 ^ 56)
    ∧ (7205759403792794 : ℚ) / 2 ^ 56 ≠ (1 : ℚ) / 10 := by
  refine ⟨by decide, ?_, by norm_num⟩
  simp only [PyFloat.valQ]
  rw [zpow_neg]
  norm_num

set_option maxRecDepth 100000 in
/-- C6 (amended): on trimmed non-empty text the extracted value follows the
claimed branch structure, except that the dot branch parses with binary
floating point — float(), a dyadic binary64 value — rather than exact
decimal arithmetic: text containing a dot becomes the rounded binary64
value when it parses (and the sign-adjusted trimmed string otherwise),
other text goes through the integer parse with the trimmed string kept on
failure, and a minus sign attribute is prepended before coercion. -/
theorem extract_fact_value_coercion :
    (∀ t sign, pyStrip t ≠ "" →
      extractFactValue (some t) sign =
        (if containsChar (if sign = "-" then "-" ++ pyStrip t else pyStrip t) '.' then
           match parseFloatFrac (if sign = "-" then "-" ++ pyStrip t else pyStrip t) with
           | some nd => some (.float (floatOfFrac nd.1 nd.2))
           | none => some (.str (if sign = "-" then "-" ++ pyStrip t else pyStrip t))
         else
           match parseIntStr (if sign = "-" then "-" ++ pyStrip t else pyStrip t) with
           | some i => some (.int i)
           | none => some (.str (if sign = "-" then "-" ++ pyStrip t else pyStrip t))))
    ∧ extractFactValue (some "42") "" = some (.int 42)
    ∧ extractFactValue (some "1.5") "" = some (.float (.finite 6755399441055744 (-52)))
    ∧ PyFloat.valQ (.finite 6755399441055744 (-52)) = some ((3 : ℚ) / 2)
    ∧ extractFactValue (some "abc") "" = some (.str "abc")
    ∧ extractFactValue (some "5") "-" = some (.int (-5)) := by
  refine ⟨?_, by decide, by decide, ?_, by decide, by decide⟩
  · intro t sign h
    simp only [extractFactValue]
    rw [if_neg h]
    unfold extractFactValueCore
    rfl
  · simp only [PyFloat.valQ]
    rw [zpow_neg]
    norm_num

set_option maxRecDepth 100000 in
/-- Witness for the branch structure of extract_fact_value_coercion at the
text "7.5". -/
theorem extract_fact_value_coercion_witness :
    extractFactValue (some "7.5") "" = some (.float (floatOfFrac 75 10)) := by
  have h := extract_fact_value_coercion.1 "7.5" "" (by decide)
  rw [h]; decide

theorem lookup_some_mem {α : Type} (l : List (String × α)) (k : String) (v : α)
    (h : l.lookup k = some v) : (k, v) ∈ l := by
  induction l with
  | nil => simp [List.lookup] at h
  | cons p rest ih =>
    obtain ⟨k0, v0⟩ := p
    by_cases he : k = k0
    · subst he
      simp [List.lookup] at h
      subst h
      exact List.mem_cons_self _ _
    · simp [List.lookup, beq_false_of_ne he] at h
      exact List.mem_cons_of_mem _ (ih h)

theorem lookup_none_not_mem {α : Type} (l : List (String × α)) (k : String)
    (h : l.lookup k = none) : ∀ v : α, (k, v) ∉ l := by
  induction l with
  | nil => intro v hv; simp at hv
  | cons p rest ih =>
    obtain ⟨k0, v0⟩ := p
    intro v hv
    by_cases he : k = k0
    · subst he
      simp [List.lookup] at h
    · simp [List.lookup, beq_false_of_ne he] at h
      rcases List.mem_cons.mp hv with h' | h'
      · exact he (congrArg Prod.fst h')
      · exact h k v h' rfl

theorem dictInsert_mem {α : Type} (m : List (String × α)) (k : String) (v : α) :
    ∀ kv ∈ dictInsert m k v, kv ∈ m ∨ kv = (k, v) := by
  induction m with
  | nil =>
    intro kv h
    simp only [dictInsert, List.mem_singleton] at h
    exact Or.inr h
  | cons p rest ih =>
    intro kv h
    obtain ⟨k0, v0⟩ := p
    unfold dictInsert at h
    by_cases he : k0 = k
    · rw [if_pos he] at h
      rcases List.mem_cons.mp h with h | h
      · exact Or.inr h
      · exact Or.inl (List.mem_cons_of_mem _ h)
    · rw [if_neg he] at h
      rcases List.mem_cons.mp h with h | h
      · exact Or.inl (h ▸ List.mem_cons_self _ _)
      · rcases ih kv h with h' | h'
        · exact Or.inl (List.mem_cons_of_mem _ h')
        · exact Or.inr h'

theorem missingContext_not_in_unitErrors (st : ProcessorState) (fact : XBRLFact)
    (a b : String) : ValidationError.missingContext a b ∉ unitErrors st fact := by
  cases hu : fact.unit_ref <;> unfold unitErrors <;> rw [hu] <;> split_ifs <;> simp

theorem mem_unitErrors_iff (st : ProcessorState) (fact : XBRLFact)
    (hempty : st.units.lookup "" = none) :
    (∃ d ∈ unitErrors st fact, isMissingUnitDiag d = true) ↔
      (pyIsNumeric fact.value = true ∧
        (fact.unit_ref = none ∨
          ∃ u, fact.unit_ref = some u ∧ st.units.lookup u = none)) := by
  cases hu : fact.unit_ref with
  | none =>
    cases hv : pyIsNumeric fact.value <;>
      simp [unitErrors, hu, hv, pyFalsyOpt, isMissingUnitDiag]
  | some u =>
    by_cases hue : u = ""
    · subst hue
      cases hv : pyIsNumeric fact.value
      · simp [unitErrors, hu, hv, pyFalsyOpt, isMissingUnitDiag]
      · simp [unitErrors, hu, hv, pyFalsyOpt, isMissingUnitDiag]
        intro a b hab heq
        subst heq
        exact lookup_none_not_mem st.units "" hempty b hab
    · cases hv : pyIsNumeric fact.value
      · simp [unitErrors, hu, hv, pyFalsyOpt, hue, isMissingUnitDiag]
      · cases hl : st.units.lookup u with
        | none =>
          simp [unitErrors, hu, hv, pyFalsyOpt, hue, isMissingUnitDiag, hl]
          intro a b hab heq
          subst heq
          exact lookup_none_not_mem st.units u hl b hab
        | some u' =>
          simp [unitErrors, hu, hv, pyFalsyOpt, hue, isMissingUnitDiag, hl]
          exact ⟨u', lookup_some_mem st.units u u' hl⟩

/-- C1: for every fact in the collection, the diagnostics validate()
produces for that fact all appear in its output; the fact gets a
missing-context diagnostic exactly when its context reference does not
resolve, and a missing-unit diagnostic (either of the two unit messages)
exactly when its value is numeric and its unit reference is absent or does
not resolve.  The hypothesis on the empty key reflects that unit extraction
never stores a unit under a falsy id. -/
theorem validate_missing_reference_iff
    (st : ProcessorState) (fact : XBRLFact)
    (hmem : fact ∈ st.facts)
    (hempty : st.units.lookup "" = none) :
    (∀ d ∈ factErrors st fact, d ∈ validate st)
    ∧ (ValidationError.missingContext fact.concept fact.context_ref ∈ factErrors st fact ↔
        st.contexts.lookup fact.context_ref = none)
    ∧ ((∃ d ∈ factErrors st fact, isMissingUnitDiag d = true) ↔
        (pyIsNumeric fact.value = true ∧
          (fact.unit_ref = none ∨
            ∃ u, fact.unit_ref = some u ∧ st.units.lookup u = none))) := by
  refine ⟨?_, ?_, ?_⟩
  · intro d hd
    exact List.mem_flatMap.mpr ⟨fact, hmem, hd⟩
  · rw [factErrors, List.mem_append]
    cases hc : st.contexts.lookup fact.context_ref with
    | none =>
      simp [hc]
    | some c =>
      simp only [hc, Option.isNone_some, Bool.false_eq_true, if_false, List.not_mem_nil,
        false_or]
      exact iff_of_false (missingContext_not_in_unitErrors st fact _ _) (by simp)
  · rw [← mem_unitErrors_iff st fact hempty]
    constructor
    · rintro ⟨d, hd, hud⟩
      rw [factErrors, List.mem_append] at hd
      rcases hd with hd | hd
      · exfalso
        rcases hc : (st.contexts.lookup fact.context_ref).isNone <;> rw [hc] at hd <;>
          simp at hd
        rw [hd] at hud
        simp [isMissingUnitDiag] at hud
      · exact ⟨d, hd, hud⟩
    · rintro ⟨d, hd, hud⟩
      refine ⟨d, ?_, hud⟩
      rw [factErrors, List.mem_append]
      exact Or.inr hd

/-- Witness for validate_missing_reference_iff: a numeric fact referencing
an unknown context in an empty processor state gets the missing-context
diagnostic. -/
theorem validate_missing_reference_iff_witness :
    ValidationError.missingContext "t:Sales" "cX" ∈
      factErrors ⟨[], [], [⟨"t:Sales", .int 9, "cX", none, none, none⟩]⟩
        ⟨"t:Sales", .int 9, "cX", none, none, none⟩ :=
  (validate_missing_reference_iff ⟨[], [], [⟨"t:Sales", .int 9, "cX", none, none, none⟩]⟩
    ⟨"t:Sales", .int 9, "cX", none, none, none⟩ (by decide) (by decide)).2.1.mpr (by decide)

/-- C9 (amended): unit extraction guarantees only that a materialized unit
has a nonempty measures list or a nonempty numerator list; the divide
invariant (nonempty numerator and denominator) is not established at
construction and is instead checked by TaxonomyValidator.validate_unit,
which reports the divide error exactly for divide units lacking a numerator
or a denominator (once the unit has measures at all). -/
theorem unit_materialization_guarantee :
    (∀ (units : List (String × XBRLUnit)) (u : Elem) (ov : Option String)
        (kx : String × XBRLUnit), kx ∈ processUnitElement units u ov →
      kx ∈ units ∨ kx.2.measures ≠ [] ∨ kx.2.numerator ≠ [])
    ∧ (∀ x : XBRLUnit, x.measures ≠ [] →
        (divideUnitError ∈ (validateUnit x).errors ↔
          x.divide = true ∧ (x.numerator = [] ∨ x.denominator = []))) := by
  constructor
  · intro units u ov kx hmem
    rcases hid : pyOrOpt ov (getAttr u "id") with _ | uid
    · simp only [processUnitElement, hid] at hmem
      exact Or.inl hmem
    · simp only [processUnitElement, hid] at hmem
      unfold processUnitWithId at hmem
      by_cases h0 : uid = ""
      · rw [if_pos h0] at hmem
        exact Or.inl hmem
      · rw [if_neg h0] at hmem
        rcases hdiv : findChild u xbrliNs "divide" with _ | de
        · simp only [hdiv] at hmem
          by_cases hm : unitMeasures u ≠ []
          · rw [if_pos hm] at hmem
            rcases dictInsert_mem _ _ _ _ hmem with h | h
            · exact Or.inl h
            · subst h
              exact Or.inr (Or.inl hm)
          · rw [if_neg hm] at hmem
            exact Or.inl hmem
        · simp only [hdiv] at hmem
          by_cases hm : unitMeasures u ≠ [] ∨ unitNumerator de ≠ []
          · rw [if_pos hm] at hmem
            rcases dictInsert_mem _ _ _ _ hmem with h | h
            · exact Or.inl h
            · subst h
              exact Or.inr hm
          · rw [if_neg hm] at hmem
            exact Or.inl hmem
  · intro x hms
    unfold validateUnit
    rw [if_neg hms]
    by_cases hc : x.divide = true ∧ (x.numerator = [] ∨ x.denominator = [])
    · simp only [if_pos hc, List.mem_singleton]
      exact ⟨fun _ => hc, fun _ => by trivial⟩
    · simp only [if_neg hc, List.not_mem_nil, false_iff]
      exact hc

/-- Witness for unit_materialization_guarantee: validate_unit flags the
stored counterexample unit. -/
theorem unit_materialization_guarantee_witness :
    divideUnitError ∈ (validateUnit ⟨"u2", ["iso4217:USD"], true, [], []⟩).errors :=
  (unit_materialization_guarantee.2 ⟨"u2", ["iso4217:USD"], true, [], []⟩
    (by decide)).mpr (by decide)

theorem val_eq_intCoeff (d : PyDecimal) : d.val = (d.intCoeff : ℚ) * (10 : ℚ) ^ d.exp := by
  obtain ⟨neg, c, e⟩ := d
  cases neg <;> simp [PyDecimal.val, PyDecimal.intCoeff] <;> push_cast <;> ring

theorem intCoeff_mk (v m : Int) :
    (PyDecimal.mk (decide (v < 0)) v.natAbs m).intCoeff = v := by
  show (if decide (v < 0) = true then -(v.natAbs : Int) else (v.natAbs : Int)) = v
  by_cases h : v < 0
  · rw [if_pos (by simpa using h)]
    omega
  · rw [if_neg (by simpa using h)]
    omega

theorem pow_ten_split (a m : Int) (h : m ≤ a) :
    (10 : ℚ) ^ a = (10 : ℚ) ^ ((a - m).toNat) * (10 : ℚ) ^ m := by
  rw [← zpow_natCast (10 : ℚ) (a - m).toNat, Int.toNat_of_nonneg (by omega),
    ← zpow_add₀ (by norm_num : (10 : ℚ) ≠ 0)]
  congr 1
  omega

theorem decAdd_val (a b : PyDecimal) : (decAdd a b).val = a.val + b.val := by
  unfold decAdd
  rw [val_eq_intCoeff, val_eq_intCoeff a, val_eq_intCoeff b]
  simp only [intCoeff_mk]
  rw [pow_ten_split a.exp (min a.exp b.exp) (min_le_left _ _),
    pow_ten_split b.exp (min a.exp b.exp) (min_le_right _ _)]
  push_cast
  ring

theorem decMul_val (a b : PyDecimal) : (decMul a b).val = a.val * b.val := by
  have hz : (10 : ℚ) ^ (a.exp + b.exp) = 10 ^ a.exp * 10 ^ b.exp :=
    zpow_add₀ (by norm_num) _ _
  unfold decMul PyDecimal.val
  cases ha : a.neg <;> cases hb : b.neg <;>
    simp [ha, hb, hz] <;> push_cast <;> ring

theorem decSub_val (a b : PyDecimal) : (decSub a b).val = a.val - b.val := by
  unfold decSub
  rw [decAdd_val]
  have h : (PyDecimal.mk (!b.neg) b.coeff b.exp).val = -b.val := by
    cases hb : b.neg <;> simp [PyDecimal.val, hb] <;> ring
  rw [h]
  ring

theorem decAbs_val (a : PyDecimal) : (decAbs a).val = |a.val| := by
  have h10 : (0 : ℚ) < (10 : ℚ) ^ a.exp := zpow_pos (by norm_num) _
  rw [val_eq_intCoeff, val_eq_intCoeff, abs_mul, abs_of_pos h10]
  congr 1
  have habs : |(a.intCoeff : ℚ)| = (a.coeff : ℚ) := by
    unfold PyDecimal.intCoeff
    cases han : a.neg
    · rw [if_neg (by simp)]
      exact abs_of_nonneg (by positivity)
    · rw [if_pos rfl]
      push_cast
      rw [abs_neg]
      exact abs_of_nonneg (by positivity)
  rw [habs]
  simp [decAbs, PyDecimal.intCoeff]

theorem decGtVal_iff (a b : PyDecimal) : decGtVal a b = true ↔ b.val < a.val := by
  unfold decGtVal
  rw [decide_eq_true_eq, val_eq_intCoeff a, val_eq_intCoeff b,
    pow_ten_split a.exp (min a.exp b.exp) (min_le_left _ _),
    pow_ten_split b.exp (min a.exp b.exp) (min_le_right _ _)]
  have h10 : (0 : ℚ) < (10 : ℚ) ^ (min a.exp b.exp) := zpow_pos (by norm_num) _
  rw [← mul_assoc, ← mul_assoc, mul_lt_mul_right h10]
  constructor <;> intro h
  · push_cast
    exact_mod_cast h
  · push_cast at h
    exact_mod_cast h

theorem decTolerance_val : decTolerance.val = 1 / 100 := by
  unfold decTolerance PyDecimal.val
  norm_num

theorem childSum_val (facts : List (String × PyDecimal))
    (sorted : List CalculationRelationship) :
    (childSum facts sorted).val =
      (sorted.filterMap
        (fun r => (facts.lookup r.child).map (fun v => v.val * r.weight.val))).sum := by
  unfold childSum
  suffices h : ∀ (l : List CalculationRelationship) (acc : PyDecimal),
      (l.foldl
        (fun acc r =>
          match facts.lookup r.child with
          | some v => decAdd acc (decMul v r.weight)
          | none => acc) acc).val =
        acc.val +
          (l.filterMap
            (fun r => (facts.lookup r.child).map (fun v => v.val * r.weight.val))).sum by
    rw [h]
    simp [decZero, PyDecimal.val]
  intro l
  induction l with
  | nil => intro acc; simp
  | cons r rest ih =>
    intro acc
    cases hl : facts.lookup r.child with
    | none => simp [List.foldl_cons, hl, ih]
    | some v =>
      simp [List.foldl_cons, hl, ih, decAdd_val, decMul_val]
      ring

theorem parentOutcome_parentOf (roles : List (String × String))
    (facts : List (String × PyDecimal)) (cid parent : String)
    (rels : List CalculationRelationship) (d : CalcDiag)
    (h : parentOutcome roles facts cid parent rels = some d) : d.parentOf = parent := by
  unfold parentOutcome at h
  split at h
  · cases h
  · split at h
    · split at h
      · cases h; rfl
      · cases h
    · cases h; rfl

theorem validateCalcGo_parentOf_mem (roles : List (String × String))
    (facts : List (String × PyDecimal)) (cid : String) :
    ∀ (l : List (String × List CalculationRelationship)) (processed : List String)
      (d : CalcDiag), d ∈ validateCalcGo roles facts cid l processed →
      d.parentOf ∈ l.map Prod.fst := by
  intro l
  induction l with
  | nil => intro processed d hd; simp [validateCalcGo] at hd
  | cons p rest ih =>
    intro processed d hd
    obtain ⟨parent, rels⟩ := p
    rw [List.map_cons]
    unfold validateCalcGo at hd
    split at hd
    · split at hd
      · rcases List.mem_cons.mp hd with h | h
        · subst h
          rename_i hout
          rw [parentOutcome_parentOf roles facts cid parent rels _ hout]
          exact List.mem_cons_self _ _
        · exact List.mem_cons_of_mem _ (ih _ _ h)
      · exact List.mem_cons_of_mem _ (ih _ _ hd)
    · exact List.mem_cons_of_mem _ (ih _ _ hd)

theorem validateCalcGo_filter (roles : List (String × String))
    (facts : List (String × PyDecimal)) (cid parent : String)
    (rels : List CalculationRelationship) :
    ∀ (l : List (String × List CalculationRelationship)) (processed : List String),
      (l.map Prod.fst).Nodup → (parent, rels) ∈ l → parent ∉ processed →
      (facts.lookup parent).isSome = true →
      (validateCalcGo roles facts cid l processed).filter
        (fun d => d.parentOf = parent) =
        (parentOutcome roles facts cid parent rels).toList := by
  intro l
  induction l with
  | nil => intro processed _ hmem; exact absurd hmem (List.not_mem_nil _)
  | cons p rest ih =>
    intro processed hnd hmem hproc hsome
    obtain ⟨p1, rs1⟩ := p
    rw [List.map_cons] at hnd
    have hnd1 : p1 ∉ rest.map Prod.fst := (List.nodup_cons.mp hnd).1
    have hnd2 : (rest.map Prod.fst).Nodup := (List.nodup_cons.mp hnd).2
    have hrest0 : ∀ processed',
        (validateCalcGo roles facts cid rest processed').filter
          (fun d => d.parentOf = p1) = [] := by
      intro processed'
      rw [List.filter_eq_nil_iff]
      intro a ha
      simp only [decide_eq_true_eq]
      intro hpa
      exact hnd1 (hpa ▸ validateCalcGo_parentOf_mem roles facts cid rest processed' a ha)
    rcases List.mem_cons.mp hmem with heq | htail
    · injection heq with h1 h2
      subst h1
      subst h2
      unfold validateCalcGo
      rw [if_pos ⟨hsome, hproc⟩]
      split
      · rename_i d0 hout
        rw [List.filter_cons_of_pos
          (by simp [parentOutcome_parentOf roles facts cid parent rels d0 hout])]
        rw [hrest0 (parent :: processed), hout]
        rfl
      · rename_i hout
        rw [hout]
        exact hrest0 (parent :: processed)
    · have hp1ne : p1 ≠ parent := by
        intro hcontra
        subst hcontra
        exact hnd1 (List.mem_map.mpr ⟨(p1, rels), htail, rfl⟩)
      have hpnotin : parent ∉ p1 :: processed := by
        intro hcontra
        rcases List.mem_cons.mp hcontra with h | h
        · exact hp1ne h.symm
        · exact hproc h
      unfold validateCalcGo
      by_cases hg : (facts.lookup p1).isSome = true ∧ p1 ∉ processed
      · rw [if_pos hg]
        split
        · rename_i d0 hout
          rw [List.filter_cons_of_neg
            (by simp [parentOutcome_parentOf roles facts cid p1 rs1 d0 hout]; exact hp1ne)]
          exact ih (p1 :: processed) hnd2 htail hpnotin hsome
        · exact ih (p1 :: processed) hnd2 htail hpnotin hsome
      · rw [if_neg hg]
        exact ih processed hnd2 htail hproc hsome

/-- C2: in each context, every parent concept with a present value produces
exactly the diagnostics of its parent outcome (the processed set lets each
parent be validated once per context): no diagnostic when all children are
present and the weighted child sum, accumulated by ascending order, is
within 0.01 of the parent value; exactly one calculation-error diagnostic
carrying the expected sum on a mismatch; exactly one missing-children
diagnostic, with the sum check skipped, when a child is absent.  On the
NetIncome example with weights plus and minus one, facts 500/1000/500 yield no
diagnostics and changing NetIncome to 400 yields exactly one calculation
error whose expected value is the decimal 500. -/
theorem validate_calculations_outcomes :
    (∀ (calcRels : List (String × List CalculationRelationship))
        (roles : List (String × String)) (facts : List (String × PyDecimal))
        (cid parent : String) (rels : List CalculationRelationship),
      (calcRels.map Prod.fst).Nodup → (parent, rels) ∈ calcRels →
      (facts.lookup parent).isSome = true →
      (validateContextCalculations calcRels roles facts cid).filter
        (fun d => d.parentOf = parent) =
        (parentOutcome roles facts cid parent rels).toList)
    ∧ (∀ (roles : List (String × String)) (facts : List (String × PyDecimal))
        (cid parent : String) (rels : List CalculationRelationship) (pv : PyDecimal),
        facts.lookup parent = some pv →
        (missingChildrenOf facts (sortRels rels) = [] →
          ¬(1 / 100 < |pv.val - (childSum facts (sortRels rels)).val|) →
          parentOutcome roles facts cid parent rels = none)
        ∧ (missingChildrenOf facts (sortRels rels) = [] →
          1 / 100 < |pv.val - (childSum facts (sortRels rels)).val| →
          parentOutcome roles facts cid parent rels =
            some (.calcMismatch parent (roleDescOf roles rels) cid
              (childSum facts (sortRels rels)) pv
              (sortedStrings (usedChildrenOf facts (sortRels rels)))))
        ∧ (missingChildrenOf facts (sortRels rels) ≠ [] →
          parentOutcome roles facts cid parent rels =
            some (.missingChildren parent cid (missingChildrenOf facts (sortRels rels)))))
    ∧ (∀ (facts : List (String × PyDecimal)) (sorted : List CalculationRelationship),
        (childSum facts sorted).val =
          (sorted.filterMap
            (fun r => (facts.lookup r.child).map (fun v => v.val * r.weight.val))).sum)
    ∧ validateCalculations exCalcRels [] [("ctx1", exFacts1)] = []
    ∧ validateContextCalculations exCalcRels [] exFacts2 "ctx1" =
        [.calcMismatch "NetIncome" "default" "ctx1" ⟨false, 500, 0⟩ ⟨false, 400, 0⟩
          ["Expenses", "Revenue"]]
    ∧ PyDecimal.val ⟨false, 500, 0⟩ = 500
    ∧ PyDecimal.val ⟨false, 400, 0⟩ = 400 := by
  have htol : ∀ pv expected : PyDecimal,
      decGtVal (decAbs (decSub pv expected)) decTolerance = true ↔
        1 / 100 < |pv.val - expected.val| := by
    intro pv expected
    rw [decGtVal_iff, decAbs_val, decSub_val, decTolerance_val]
  refine ⟨?_, ?_, childSum_val, by decide, by decide,
    by norm_num [PyDecimal.val], by norm_num [PyDecimal.val]⟩
  · intro calcRels roles facts cid parent rels hnd hmem hsome
    exact validateCalcGo_filter roles facts cid parent rels calcRels [] hnd hmem
      (List.not_mem_nil _) hsome
  · intro roles facts cid parent rels pv hpv
    refine ⟨?_, ?_, ?_⟩
    · intro hmiss hle
      simp only [parentOutcome, hpv]
      rw [if_pos hmiss, if_neg]
      intro hcontra
      exact hle ((htol pv (childSum facts (sortRels rels))).mp hcontra)
    · intro hmiss hgt
      simp only [parentOutcome, hpv]
      rw [if_pos hmiss, if_pos ((htol pv (childSum facts (sortRels rels))).mpr hgt)]
    · intro hmiss
      simp only [parentOutcome, hpv]
      rw [if_neg hmiss]

/-- Witness for validate_calculations_outcomes: the per-parent filter
equation at the mismatching NetIncome example. -/
theorem validate_calculations_outcomes_witness :
    (validateContextCalculations exCalcRels [] exFacts2 "ctx1").filter
      (fun d => d.parentOf = "NetIncome") =
      (parentOutcome [] exFacts2 "ctx1" "NetIncome" exNetIncomeRels).toList :=
  validate_calculations_outcomes.1 exCalcRels [] exFacts2 "ctx1" "NetIncome"
    exNetIncomeRels (by decide) (by decide) (by decide)

theorem extractPeriod_shape (c : Elem) (pd : PeriodData)
    (h : extractPeriod c = .ok pd) :
    pd.instant = none ∨ (pd.period_start = none ∧ pd.period_end = none) := by
  unfold extractPeriod at h
  split at h
  · cases h
    exact Or.inl rfl
  · split at h
    · split at h
      · cases h
        exact Or.inr ⟨rfl, rfl⟩
      · cases h
    · split at h
      · cases h
      · split at h
        · cases h
        · cases h
          exact Or.inl rfl

theorem processContextElem_inv (contexts : List (String × XBRLContext)) (c : Elem)
    (res : List (String × XBRLContext))
    (hinv : ∀ kc ∈ contexts,
      ¬((kc : String × XBRLContext).2.is_instant = true ∧ kc.2.is_duration = true))
    (h : processContextElem contexts c = .ok res) :
    ∀ kc ∈ res, ¬(kc.2.is_instant = true ∧ kc.2.is_duration = true) := by
  unfold processContextElem at h
  split at h
  · cases h; exact hinv
  · split at h
    · cases h; exact hinv
    · split at h
      · cases h; exact hinv
      · split at h
        · cases h
        · cases h
          intro kc hkc
          rcases dictInsert_mem _ _ _ _ hkc with hm | hm
          · exact hinv kc hm
          · subst hm
            rename_i pd heq
            rcases extractPeriod_shape c pd heq with hs | hs
            · intro hcontra
              rw [XBRLContext.is_instant] at hcontra
              simp [hs] at hcontra
            · intro hcontra
              rw [XBRLContext.is_duration] at hcontra
              simp [hs.1] at hcontra

/-- C8: every context produced by the context-extraction loop has a period
that is at most one of the instant and the duration form — never both; in
particular the context ctx1 with entity http://test.com:TEST and instant
period 2024-01-01 is stored with is_instant true and is_duration false. -/
theorem context_period_invariant :
    (∀ (elems : List Elem) (init res : List (String × XBRLContext)),
      (∀ kc ∈ init,
        ¬((kc : String × XBRLContext).2.is_instant = true ∧ kc.2.is_duration = true)) →
      parseContexts init elems = .ok res →
      ∀ kc ∈ res, ¬(kc.2.is_instant = true ∧ kc.2.is_duration = true))
    ∧ parseContexts [] [instantCtxElem] = .ok [("ctx1", instantCtxVal)]
    ∧ instantCtxVal.entity = "http://test.com:TEST"
    ∧ instantCtxVal.is_instant = true
    ∧ instantCtxVal.is_duration = false := by
  refine ⟨?_, by rfl, by decide, by decide, by decide⟩
  intro elems
  induction elems with
  | nil =>
    intro init res hinv h
    rw [parseContexts, List.foldlM_nil] at h
    cases h
    exact hinv
  | cons e rest ih =>
    intro init res hinv h
    rw [parseContexts, List.foldlM_cons] at h
    cases hstep : processContextElem init e with
    | error msg => rw [hstep] at h; cases h
    | ok st' =>
      rw [hstep] at h
      exact ih st' res (processContextElem_inv init e st' hinv hstep) h

/-- Witness for context_period_invariant: the invariant applied to the
concrete single-context document. -/
theorem context_period_invariant_witness :
    ¬(instantCtxVal.is_instant = true ∧ instantCtxVal.is_duration = true) :=
  context_period_invariant.1 [instantCtxElem] [] [("ctx1", instantCtxVal)]
    (by simp) (by rfl) ("ctx1", instantCtxVal) (by decide)

/-- C7: the effective _extract_entity (the second, shadowing definition in
the class body) always emits the colon and does not trim the identifier
text, contradicting the specified scheme:trimmed-text format that the
shadowed first definition implements: with no scheme attribute and text
padded with spaces it returns ": TEST " where the specification requires
"TEST", and with a scheme it returns "http://test.com: TEST " where the
specification requires "http://test.com:TEST". -/
theorem extract_entity_shadowing_behavior :
    extractEntity ctxNoScheme = ": TEST "
    ∧ extractEntityShadowed ctxNoScheme = some "TEST"
    ∧ extractEntity ctxWithScheme = "http://test.com: TEST "
    ∧ extractEntityShadowed ctxWithScheme = some "http://test.com:TEST"
    ∧ (": TEST " : String) ≠ "TEST"
    ∧ ("http://test.com: TEST " : String) ≠ "http://test.com:TEST" := by
  refine ⟨by decide, by decide, by decide, by decide, by decide, by decide⟩

/-- C9 counterexample: a unit element whose divide child has numerator
measures but no denominator measures is materialized (the descendant measure
fallback makes the measures list nonempty), so the unit collection contains
a unit with divide true and an empty denominator, refuting the claimed
invariant. -/
theorem divide_unit_missing_denominator_cex :
    processUnitElement [] ceUnitElem none = [("u1", ceUnitVal)]
    ∧ ceUnitVal.divide = true
    ∧ ceUnitVal.denominator = [] := by
  refine ⟨by decide, by decide, by decide⟩

/-- C10 counterexample: when the facts collection already holds a fact and
the body succeeds with one new fact, the collection afterwards is exactly
the new facts, not the prior contents with the new facts appended. -/
theorem parse_ixbrl_facts_replaces_cex :
    parseIxbrlFacts [cexFactOld] (.ok [cexFactNew]) = ([cexFactNew], [cexFactNew])
    ∧ ([cexFactNew] : List XBRLFact) ≠ [cexFactOld, cexFactNew] := by
  refine ⟨rfl, by decide⟩

/-- C10 (amended): _parse_ixbrl_facts restores the saved facts collection
and returns an empty list when the body raises, and on success both returns
the newly created facts and leaves the collection holding exactly those
facts (the collection having been cleared at entry). -/
theorem parse_ixbrl_facts_state (original newFacts : List XBRLFact) (msg : String)
    (body : Except String (List XBRLFact)) :
    (body = .error msg → parseIxbrlFacts original body = (original, []))
    ∧ (body = .ok newFacts → parseIxbrlFacts original body = (newFacts, newFacts)) := by
  constructor
  · intro h; subst h; rfl
  · intro h; subst h; rfl

/-- Witness for parse_ixbrl_facts_state at a concrete erroring body. -/
theorem parse_ixbrl_facts_state_witness :
    parseIxbrlFacts [cexFactOld] (.error "boom") = ([cexFactOld], []) :=
  (parse_ixbrl_facts_state [cexFactOld] [] "boom" (.error "boom")).1 rfl

/-- C5 counterexample: _apply_scaling on the unparseable value "Total" with
scale "3" returns the lower-cased text "total", not the pre-scale text
"Total" unchanged. -/
theorem apply_scaling_failure_not_unchanged_cex :
    applyScaling "Total" "3" = "total" ∧ ("total" : String) ≠ "Total" := by
  refine ⟨by decide, by decide⟩

/-- C5 (amended): when the value is not empty or a dash/n-a token and the
numeric parse of the cleaned value or of the scale fails, _apply_scaling
returns (without raising) the trimmed, lower-cased, number-word-substituted
text, with thousands commas retained. -/
theorem apply_scaling_failure_returns_cleaned (value scale : String)
    (h1 : pyLower (pyStrip value) ≠ "")
    (h2 : pyLower (pyStrip value) ∉ scaleSpecials)
    (h3 : parseDecimalCore (removeChar ',' (preScaleText value)) = none
          ∨ parseIntStr scale = none) :
    applyScaling value scale = preScaleText value := by
  unfold applyScaling
  rw [if_neg (by push_neg; exact ⟨h1, h2⟩)]
  unfold applyScalingCore
  rcases h3 with h | h
  · rw [h]
  · rw [h]
    cases parseDecimalCore (removeChar ',' (preScaleText value)) <;> rfl

/-- Witness for apply_scaling_failure_returns_cleaned at value "Total",
scale "3". -/
theorem apply_scaling_failure_returns_cleaned_witness :
    applyScaling "Total" "3" = preScaleText "Total" :=
  apply_scaling_failure_returns_cleaned "Total" "3" (by decide) (by decide)
    (Or.inl (by decide))

/-- C4: numdotdecimal maps "1,234.56" to "1234.56", numcommadot maps
"1.234,56" to "1234.56", and — for any value and any format — a value fully
wrapped in parentheses after the format-specific cleanup has the parentheses
stripped and a minus sign prepended before the trailing-percent and final
trim steps; in particular "(1234.56)" with numdotdecimal normalizes to
"-1234.56". -/
theorem apply_transform_formats :
    applyTransform "1,234.56" "ixt:numdotdecimal" = "1234.56"
    ∧ applyTransform "1.234,56" "ixt:numcommadot" = "1234.56"
    ∧ applyTransform "(1234.56)" "ixt:numdotdecimal" = "-1234.56"
    ∧ ∀ v f, v ≠ "" → f ≠ "" →
        startsWithChar (formatClean f (pyStrip v)) '(' = true →
        endsWithChar (formatClean f (pyStrip v)) ')' = true →
        applyTransform v f =
          pyStrip (percentStrip
            ("-" ++ strDropRight 1 (strDrop 1 (formatClean f (pyStrip v))))) := by
  refine ⟨by decide, by decide, by decide, ?_⟩
  intro v f hv hf hs he
  unfold applyTransform
  rw [if_neg (by push_neg; exact ⟨hv, hf⟩)]
  unfold parenNegate
  rw [if_pos ⟨hs, he⟩]

/-- Witness for the parenthetical-negative rule of apply_transform_formats
under a format with no specific cleanup. -/
theorem apply_transform_formats_witness :
    applyTransform "(7)" "ixt:other" = "-7" := by
  have h := apply_transform_formats.2.2.2 "(7)" "ixt:other"
    (by decide) (by decide) (by decide) (by decide)
  rw [h]; decide

end XBRL
